import Mathlib

/-!
# Verification of the BOT-REKAPAN activation-report bot core

A shallow embedding, in Lean 4, of the core logic of `src/index.js` (the
enhanced bot) and `src/unnamed/part_000` (the legacy minimal bot):

* the format classifier `detectOwner`,
* the multi-format field extractor `parseAktivasi` (TSEL / BGES-WMS / manual
  fallback branches, including the JavaScript regular expressions they use,
  embedded by a small backtracking pattern matcher),
* the date helpers `parseIndonesianDate` / custom-anchor parsing and the
  period filter `filterDataByPeriod`,
* the `/aktivasi` write path (validation, duplicate check, append),
* the `/clear` duplicate-cleanup write-back, and
* the tally / ranking logic of the report handlers (`/ps`, `/weekly`, ...),
  including JavaScript's `Object.entries` enumeration order (integer-like
  keys first, ascending) and the stability of `Array.prototype.sort`.

JavaScript strings are modelled as `String` / `List Char` (the texts involved
are ASCII), `Date` values as civil day numbers / milliseconds (`Int`) on a
single timeline, and the spreadsheet as a `List (List String)` of rows whose
row 0 is the header.
-/

namespace BotRekapan

/-! ## Character classes and basic JS string helpers -/

/-- JavaScript's `\s` (restricted to the ASCII whitespace characters, which is
all the repository's inputs use). -/
def jsWsChar (c : Char) : Bool :=
  c = ' ' || c = '\t' || c = '\n' || c = '\r' || c = '\x0b' || c = '\x0c'

/-- JavaScript's `\w` word character. -/
def wordChar (c : Char) : Bool :=
  c.isAlpha || c.isDigit || c = '_'

/-- JavaScript's `\d`. -/
def digitChar (c : Char) : Bool := c.isDigit

def upperL (l : List Char) : List Char := l.map Char.toUpper

def lowerL (l : List Char) : List Char := l.map Char.toLower

/-- `String.prototype.toUpperCase()` (ASCII). -/
def jsUpper (s : String) : String := String.mk (upperL s.data)

/-- `String.prototype.toLowerCase()` (ASCII). -/
def jsLower (s : String) : String := String.mk (lowerL s.data)

def trimLeftL (l : List Char) : List Char := l.dropWhile (jsWsChar ·)

/-- `String.prototype.trim()`. -/
def jsTrim (s : String) : String :=
  String.mk ((trimLeftL ((trimLeftL s.data.reverse)).reverse))

/-- Does `pat` occur at the start of `l`? -/
def startsWithL : List Char → List Char → Bool
  | [], _ => true
  | _ :: _, [] => false
  | p :: ps, c :: cs => p = c && startsWithL ps cs

/-- Does `pat` occur anywhere inside `hay`?  (`String.prototype.includes`.) -/
def hasSub (hay pat : List Char) : Bool :=
  match hay with
  | [] => pat.isEmpty
  | _ :: t => startsWithL pat hay || hasSub t pat

/-- `hay.includes(pat)` on strings. -/
def strIncludes (hay pat : String) : Bool := hasSub hay.data pat.data

/-- Remove the first occurrence of `c` — `s.replace('@', '')` with a
single-character search string replaces only the first occurrence. -/
def removeFirst (c : Char) : List Char → List Char
  | [] => []
  | x :: t => if x = c then t else x :: removeFirst c t

/-- `s.replace('@', '')`. -/
def stripFirstAt (s : String) : String := String.mk (removeFirst '@' s.data)

/-- JS `str.split(sep)` for a one-character separator: splits at every
occurrence, keeping empty pieces. -/
def splitOnCharL (sep : Char) : List Char → List (List Char)
  | [] => [[]]
  | c :: t =>
    if c = sep then [] :: splitOnCharL sep t
    else
      match splitOnCharL sep t with
      | [] => [[c]]
      | p :: ps => (c :: p) :: ps

/-! ## Format classifier (`detectOwner`, src/index.js lines 824–841) -/

def hasTselMarker (text : String) : Bool :=
  let u := jsUpper text
  strIncludes u "CHANNEL : DIGIPOS" || strIncludes u "DATE CREATED" ||
    strIncludes u "WORKORDER : WO"

def hasBgesMarker (text : String) : Bool :=
  let u := jsUpper text
  strIncludes u "INDIBIZ" || strIncludes u "HSI"

def hasWmsMarker (text : String) : Bool :=
  let u := jsUpper text
  strIncludes u "WMS" || strIncludes u "MWS"

/-- `detectOwner` from `parseAktivasi`: keyword-based format detection with
TSEL markers checked first, then BGES, then WMS; the empty string selects the
manual (label `X : value`) fallback branch of the extractor. -/
def detectOwner (text : String) : String :=
  if hasTselMarker text then "TSEL"
  else if hasBgesMarker text then "BGES"
  else if hasWmsMarker text then "WMS"
  else ""

/-! ## A small backtracking pattern matcher

The extractor uses a fixed set of JavaScript regular expressions.  Each is
embedded as a sequence of `Elem`s: case-(in)sensitive literals and character
classes with a repetition range, greedy or lazy, at most one of which is the
capture group.  `matchElems` implements the standard backtracking semantics
(leftmost start position wins; at one start position, a greedy class prefers
the longest repetition count and a lazy one the shortest, backtracking into
the continuation).  Fuel arguments make every function structurally
recursive; callers always pass enough fuel (one unit per pattern element,
resp. per input character). -/

inductive Elem where
  /-- A literal, compared case-insensitively when `ci` is true. -/
  | lit (s : List Char) (ci : Bool)
  /-- A character class repeated between `lo` and `hi` times (`none` meaning
  unbounded), greedy or lazy, possibly the capture group. -/
  | cls (p : Char → Bool) (lo : Nat) (hi : Option Nat) (greedy : Bool) (cap : Bool)

/-- Match a literal at the head of the input, returning the rest. -/
def litAt (ci : Bool) : List Char → List Char → Option (List Char)
  | [], rest => some rest
  | _ :: _, [] => none
  | a :: s, c :: rest =>
    if (if ci then a.toUpper = c.toUpper else a = c) then litAt ci s rest else none

/-- Length of the longest run of characters satisfying `p` at the head. -/
def runLen (p : Char → Bool) : List Char → Nat
  | [] => 0
  | c :: t => if p c then runLen p t + 1 else 0

/-- Backtracking matcher for a pattern anchored at the current position
(`pos` is the absolute position, used to report the capture span).  Returns
`(endPos, captureSpan?)` where the span is `(start, length)`. -/
def matchElems : Nat → List Elem → List Char → Nat → Option (Nat × Option (Nat × Nat))
  | 0, _, _, _ => none
  | _ + 1, [], _, pos => some (pos, none)
  | fuel + 1, .lit s ci :: rest, cs, pos =>
    match litAt ci s cs with
    | some cs2 => matchElems fuel rest cs2 (pos + s.length)
    | none => none
  | fuel + 1, .cls p lo hi greedy cap :: rest, cs, pos =>
    let m := runLen p cs
    let maxK := match hi with | some h => min h m | none => m
    if lo > maxK then none
    else
      let ks :=
        if greedy then (List.range (maxK + 1 - lo)).map (fun i => maxK - i)
        else (List.range (maxK + 1 - lo)).map (fun i => lo + i)
      ks.findSome? fun k =>
        match matchElems fuel rest (cs.drop k) (pos + k) with
        | some (e, c) => some (e, if cap then some (pos, k) else c)
        | none => none

/-- Leftmost match: try each start position in order (the JS regex search). -/
def searchFrom : Nat → List Elem → List Char → Nat → Option (Nat × Nat × Option (Nat × Nat))
  | 0, _, _, _ => none
  | fuel + 1, es, cs, pos =>
    match matchElems (es.length + 1) es cs pos with
    | some (e, c) => some (pos, e, c)
    | none =>
      match cs with
      | [] => none
      | _ :: t => searchFrom fuel es t (pos + 1)

/-- All matches of a `/g` regex: after each match continue at its end
(advancing at least one character), as `String.prototype.match` does. -/
def globalLoop : Nat → List Elem → List Char → Nat → List (Nat × Nat × Option (Nat × Nat))
  | 0, _, _, _ => []
  | fuel + 1, es, cs, pos =>
    match searchFrom (cs.length + 1) es cs pos with
    | none => []
    | some (s, e, c) =>
      let adv := max (e - pos) (s + 1 - pos)
      (s, e, c) :: globalLoop fuel es (cs.drop adv) (pos + adv)

/-- The substring `[s, e)` of `cs` (absolute positions). -/
def sliceL (cs : List Char) (s e : Nat) : String := String.mk ((cs.drop s).take (e - s))

/-- `text.match(re)[1]` for a non-global regex: the first match's capture. -/
def firstCapture (es : List Elem) (t : String) : Option String :=
  match searchFrom (t.data.length + 1) es t.data 0 with
  | some (_, _, some (cs, cl)) => some (sliceL t.data cs (cs + cl))
  | _ => none

/-- Is there any match at all (`re.test`-like, used by the legacy bot's
`lines.find(l => regex.test(l))`)? -/
def testPat (es : List Elem) (t : String) : Bool :=
  (searchFrom (t.data.length + 1) es t.data 0).isSome

/-- `text.match(reWithG)`: the list of full match substrings. -/
def fullMatches (es : List Elem) (t : String) : List String :=
  (globalLoop (t.data.length + 1) es t.data 0).map fun m => sliceL t.data m.1 m.2.1

/-! ## The concrete patterns of `parseAktivasi` and of the legacy bot -/

def alnumCI (c : Char) : Bool := c.isAlpha || c.isDigit
def upperDigit (c : Char) : Bool := c.isUpper || c.isDigit
def upperDigitWs (c : Char) : Bool := c.isUpper || c.isDigit || jsWsChar c
def alnumWsCI (c : Char) : Bool := c.isAlpha || c.isDigit || jsWsChar c
def alnumDashCI (c : Char) : Bool := c.isAlpha || c.isDigit || c = '-'
def upperAZ (c : Char) : Bool := c.isUpper
def dotNoNl (c : Char) : Bool := !(c = '\n' || c = '\r')
def colonWs (c : Char) : Bool := c = ':' || jsWsChar c
def spColonPipe (c : Char) : Bool := c = ' ' || c = ':' || c = '|'

def litCI (s : String) : Elem := .lit s.data true
def litCS (s : String) : Elem := .lit s.data false
def wsStar : Elem := .cls jsWsChar 0 none true false
def wsPlus : Elem := .cls jsWsChar 1 none true false
def colonWsPlus : Elem := .cls colonWs 1 none true false
def spcpPlus : Elem := .cls spColonPipe 1 none true false
def capPlus (p : Char → Bool) : Elem := .cls p 1 none true true

/-- TSEL `/AO\s*:\s*([A-Za-z0-9]+)/i`. -/
def patAoColon : List Elem := [litCI "AO", wsStar, litCS ":", wsStar, capPlus alnumCI]
/-- TSEL `/AO\s*([A-Za-z0-9]+)/i`. -/
def patAoBare : List Elem := [litCI "AO", wsStar, capPlus alnumCI]
/-- TSEL `/WORKORDER\s*:\s*([A-Za-z0-9]+)/i`. -/
def patWorkorderT : List Elem :=
  [litCI "WORKORDER", wsStar, litCS ":", wsStar, capPlus alnumCI]
/-- TSEL `/SERVICE\s*NO\s*:\s*(\d+)/i`. -/
def patServiceNoT : List Elem :=
  [litCI "SERVICE", wsStar, litCI "NO", wsStar, litCS ":", wsStar, capPlus digitChar]
/-- TSEL `/CUSTOMER\s*NAME\s*:\s*([A-Z0-9\s]+)/i`. -/
def patCustNameT : List Elem :=
  [litCI "CUSTOMER", wsStar, litCI "NAME", wsStar, litCS ":", wsStar, capPlus alnumWsCI]
/-- TSEL `/WORKZONE\s*:\s*([A-Z0-9]+)/i`. -/
def patWorkzoneT : List Elem :=
  [litCI "WORKZONE", wsStar, litCS ":", wsStar, capPlus alnumCI]
/-- TSEL `/SN\s*ONT\s*:\s*([A-Z0-9]+)/i`. -/
def patSnOntT : List Elem :=
  [litCI "SN", wsStar, litCI "ONT", wsStar, litCS ":", wsStar, capPlus alnumCI]
/-- TSEL `/NIK\s*ONT\s*:\s*(\d+)/i`. -/
def patNikOntT : List Elem :=
  [litCI "NIK", wsStar, litCI "ONT", wsStar, litCS ":", wsStar, capPlus digitChar]
/-- TSEL `/STB\s*ID\s*:\s*([A-Z0-9]+)/i`. -/
def patStbT : List Elem :=
  [litCI "STB", wsStar, litCI "ID", wsStar, litCS ":", wsStar, capPlus alnumCI]
/-- TSEL `/NIK\s*STB\s*:\s*(\d+)/i`. -/
def patNikStbT : List Elem :=
  [litCI "NIK", wsStar, litCI "STB", wsStar, litCS ":", wsStar, capPlus digitChar]

/-- A brand-serial pattern like `/(ZTEGDA[A-Z0-9]+)/i`: the capture is the
whole match, so these are used through `firstMatchStr`. -/
def patBrand (s : String) : List Elem := [litCI s, .cls alnumCI 1 none true false]

/-- BGES/WMS `/AO\|.*?(SC\d{6,})/g` (case-sensitive; `.` excludes line
terminators; the quantifier is lazy). -/
def patAoSc : List Elem :=
  [litCS "AO|", .cls dotNoNl 0 none false false, litCS "SC", .cls digitChar 6 none true false]
/-- `/SC(\d{6,})/` used to re-extract the digits from the last `AO|` match. -/
def patScCap : List Elem := [litCS "SC", .cls digitChar 6 none true true]
/-- `/\d{2}\/\d{2}\/\d{4}\s+\d{2}:\d{2}\s+\d+\s+([A-Z0-9\s]+?)\s{2,}/g`
(case-sensitive; the capture is lazy). -/
def patCustomerB : List Elem :=
  [.cls digitChar 2 (some 2) true false, litCS "/", .cls digitChar 2 (some 2) true false,
   litCS "/", .cls digitChar 4 (some 4) true false, wsPlus,
   .cls digitChar 2 (some 2) true false, litCS ":", .cls digitChar 2 (some 2) true false,
   wsPlus, .cls digitChar 1 none true false, wsPlus,
   .cls upperDigitWs 1 none false true, .cls jsWsChar 2 none true false]
/-- `/AO\|\s+([A-Z]{2,})/g` (case-sensitive). -/
def patWzB : List Elem := [litCS "AO|", wsPlus, .cls upperAZ 2 none true true]
/-- BGES `/SN\s*ONT[:\s]+([A-Z0-9]+)/i`. -/
def patSnOntB : List Elem := [litCI "SN", wsStar, litCI "ONT", colonWsPlus, capPlus alnumCI]
/-- BGES `/NIK\s*ONT[:\s]+(\d+)/i`. -/
def patNikOntB : List Elem := [litCI "NIK", wsStar, litCI "ONT", colonWsPlus, capPlus digitChar]
/-- BGES `/STB\s*ID[:\s]+([A-Z0-9]+)/i`. -/
def patStbB : List Elem := [litCI "STB", wsStar, litCI "ID", colonWsPlus, capPlus alnumCI]
/-- BGES `/NIK\s*STB[:\s]+(\d+)/i`. -/
def patNikStbB : List Elem := [litCI "NIK", wsStar, litCI "STB", colonWsPlus, capPlus digitChar]

/-- Manual `/AO[:\s]+([A-Z0-9]+)/i`. -/
def patAoM : List Elem := [litCI "AO", colonWsPlus, capPlus alnumCI]
/-- Manual `/WORKORDER[:\s]+([A-Z0-9-]+)/i`. -/
def patWorkorderM : List Elem := [litCI "WORKORDER", colonWsPlus, capPlus alnumDashCI]
/-- Manual `/SERVICE\s*NO[:\s]+(\d+)/i`. -/
def patServiceNoM : List Elem :=
  [litCI "SERVICE", wsStar, litCI "NO", colonWsPlus, capPlus digitChar]
/-- Manual `/CUSTOMER\s*NAME[:\s]+(.+)/i`. -/
def patCustNameM : List Elem :=
  [litCI "CUSTOMER", wsStar, litCI "NAME", colonWsPlus, .cls dotNoNl 1 none true true]
/-- Manual `/OWNER[:\s]+([A-Z0-9]+)/i`. -/
def patOwnerM : List Elem := [litCI "OWNER", colonWsPlus, capPlus alnumCI]
/-- Manual `/WORKZONE[:\s]+([A-Z0-9]+)/i`. -/
def patWorkzoneM : List Elem := [litCI "WORKZONE", colonWsPlus, capPlus alnumCI]

/-! ## `findValue` and the field extractor `parseAktivasi` -/

/-- A pattern as used by `findValue`: `text.match(p)` returning the first
capture group.  (None of the patterns handed to `findValue` carry the `/g`
flag, so the `pattern.global` branch of the source is dead.) -/
def capOf (es : List Elem) : String → Option String := fun t => firstCapture es t

/-- `text.match(re)` of a regex whose capture group is the entire pattern:
the group equals the full match. -/
def firstMatchStr (es : List Elem) (t : String) : Option String :=
  match searchFrom (t.data.length + 1) es t.data 0 with
  | some (s, e, _) => some (sliceL t.data s e)
  | none => none

def matchStrOf (es : List Elem) : String → Option String := fun t => firstMatchStr es t

/-- `findValue(patterns)`: first pattern whose match has a non-empty first
capture wins; the capture is trimmed; otherwise the empty string. -/
def findValue (pats : List (String → Option String)) (t : String) : String :=
  match pats with
  | [] => ""
  | p :: rest =>
    match p t with
    | some g => if g.isEmpty then findValue rest t else jsTrim g
    | none => findValue rest t

/-- `a || b` on JS strings (empty string is falsy). -/
def jsOr (a b : String) : String := if a.isEmpty then b else a

/-- `text.split('\n').map(l => l.trim()).filter(l => l)`. -/
def linesOf (t : String) : List String :=
  ((splitOnCharL '\n' t.data).map fun l => jsTrim (String.mk l)).filter fun l => !l.isEmpty

/-- `line.split(':').slice(1).join(':')`. -/
def afterColon (l : String) : String :=
  String.mk (joinColon ((splitOnCharL ':' l.data).drop 1))
where
  joinColon : List (List Char) → List Char
    | [] => []
    | [x] => x
    | x :: xs => x ++ ':' :: joinColon xs

/-- `getValue(label)`: first trimmed line whose uppercase form starts with
`LABEL + ' :'`; everything after the first colon, trimmed. -/
def getValue (lns : List String) (label : String) : String :=
  match lns.find? (fun l => startsWithL (upperL label.data ++ [' ', ':']) (upperL l.data)) with
  | some l => jsTrim (afterColon l)
  | none => ""

/-- The result record of `parseAktivasi` (all fields default to `""`). -/
structure Parsed where
  ao : String
  workorder : String
  serviceNo : String
  customerName : String
  owner : String
  workzone : String
  snOnt : String
  nikOnt : String
  stbId : String
  nikStb : String
  teknisi : String
deriving Repr, DecidableEq

/-- The `\b\d{11,12}\b` global scan for BGES/WMS service numbers: maximal
digit runs of length 11 or 12 whose neighbours are not word characters. -/
def svcScan (fuel : Nat) (prev : Option Char) (cs : List Char) : List (List Char) :=
  match fuel with
  | 0 => []
  | fuel + 1 =>
    match cs with
    | [] => []
    | c :: t =>
      if digitChar c && !(wordish prev) then
        let n := runLen digitChar (c :: t)
        let rest := (c :: t).drop n
        if (n = 11 || n = 12) && !(wordish rest.head?) then
          (c :: t).take n :: svcScan fuel (some c) rest
        else svcScan fuel (some c) rest
      else svcScan fuel (some c) t
where
  wordish : Option Char → Bool
    | some c => wordChar c
    | none => false

def svcMatches (t : String) : List String :=
  (svcScan (t.data.length + 1) none t.data).map String.mk

/-- The TSEL branch of `parseAktivasi` (src/index.js lines 844–896). -/
def tselRecord (text : String) (teknisi : String) : Parsed :=
  let ao := findValue [capOf patAoColon, capOf patAoBare] text
  let workorder := jsOr (findValue [capOf patWorkorderT] text) ao
  let serviceNo := findValue [capOf patServiceNoT] text
  let customerName := findValue [capOf patCustNameT] text
  let workzone := findValue [capOf patWorkzoneT] text
  let snOnt := findValue
    [capOf patSnOntT, matchStrOf (patBrand "ZTEGDA"), matchStrOf (patBrand "HWTC"),
     matchStrOf (patBrand "HUAW"), matchStrOf (patBrand "FHTT"),
     matchStrOf (patBrand "FIBR")] text
  let nikOnt := findValue [capOf patNikOntT] text
  -- STB: `stbId` only if the STB pattern itself matched (untrimmed capture);
  -- `nikStb` only if `stbId` was found.
  let (stbId, nikStb) :=
    match firstCapture patStbT text with
    | some g =>
      if g.isEmpty then ("", "") else (g, findValue [capOf patNikStbT] text)
    | none => ("", "")
  { ao, workorder, serviceNo, customerName, owner := "TSEL", workzone,
    snOnt, nikOnt, stbId, nikStb, teknisi }

/-- The BGES/WMS branch of `parseAktivasi` (src/index.js lines 898–948). -/
def bgesRecord (text : String) (owner teknisi : String) : Parsed :=
  let (ao, workorder) :=
    match (fullMatches patAoSc text).getLast? with
    | some lastMatch =>
      match firstCapture patScCap lastMatch with
      | some d => ("SC" ++ d, "SC" ++ d)
      | none => ("", "")
    | none => ("", "")
  let serviceNo := ((svcMatches text).getLast?).getD ""
  let customerName :=
    match (fullMatches patCustomerB text).head? with
    | some fm =>
      match firstCapture patCustomerB fm with
      | some g => if g.isEmpty then "" else jsTrim g
      | none => ""
    | none => ""
  let workzone :=
    match (fullMatches patWzB text).getLast? with
    | some lastWz =>
      -- the re-match also carries the `/g` flag, so `wzMatch[1]` is the
      -- second full match of `lastWz` (not a capture group)
      match (fullMatches patWzB lastWz)[1]? with
      | some s => if s.isEmpty then "" else s
      | none => ""
    | none => ""
  let snOnt := findValue
    [capOf patSnOntB, matchStrOf (patBrand "ZTEG"), matchStrOf (patBrand "HWTC"),
     matchStrOf (patBrand "HUAW"), matchStrOf (patBrand "FHTT"),
     matchStrOf (patBrand "FIBR")] text
  let nikOnt := findValue [capOf patNikOntB] text
  let stbId := findValue [capOf patStbB] text
  let nikStb := findValue [capOf patNikStbB] text
  { ao, workorder, serviceNo, customerName, owner, workzone,
    snOnt, nikOnt, stbId, nikStb, teknisi }

/-- The manual/label fallback branch of `parseAktivasi` (src/index.js lines
950–973); note that it recomputes `owner` from the text. -/
def manualRecord (text : String) (teknisi : String) : Parsed :=
  let lns := linesOf text
  let ao := jsOr (getValue lns "AO") (findValue [capOf patAoM] text)
  let workorder := jsOr (getValue lns "WORKORDER") (findValue [capOf patWorkorderM] text)
  let serviceNo := jsOr (getValue lns "SERVICE NO") (findValue [capOf patServiceNoM] text)
  let customerName := jsOr (getValue lns "CUSTOMER NAME") (findValue [capOf patCustNameM] text)
  let owner := jsOr (getValue lns "OWNER") (findValue [capOf patOwnerM] text)
  let workzone := jsOr (getValue lns "WORKZONE") (findValue [capOf patWorkzoneM] text)
  let snOnt := jsOr (getValue lns "SN ONT") (findValue
    [capOf patSnOntB, matchStrOf (patBrand "ZTEG"), matchStrOf (patBrand "HWTC"),
     matchStrOf (patBrand "HUAW"), matchStrOf (patBrand "FHTT"),
     matchStrOf (patBrand "FIBR")] text)
  let nikOnt := jsOr (getValue lns "NIK ONT") (findValue [capOf patNikOntB] text)
  let stbId := jsOr (getValue lns "STB ID") (findValue [capOf patStbB] text)
  let nikStb := jsOr (getValue lns "NIK STB") (findValue [capOf patNikStbB] text)
  { ao, workorder, serviceNo, customerName, owner, workzone,
    snOnt, nikOnt, stbId, nikStb, teknisi }

/-- `parseAktivasi(text, userRow)` of the enhanced bot.  The technician
handle is `(userRow[1] || username).replace('@', '')` — resolved from the
USER sheet row (or the submitter's username), never from the text. -/
def parseAktivasi (text : String) (userRow : List String) (username : String) : Parsed :=
  let teknisi := stripFirstAt (jsOr (userRow.getD 1 "") username)
  let owner := detectOwner text
  if owner = "TSEL" then tselRecord text teknisi
  else if owner = "BGES" || owner = "WMS" then bgesRecord text owner teknisi
  else manualRecord text teknisi

/-! ## Dates

JS `Date` values are modelled on a single timeline: a calendar day is its
civil day number (days since 1970-01-01, negative before), an instant is its
millisecond offset (`day * 86400000 + time-of-day`).  `daysFromCivil` /
`civilFromDays` are the standard civil-calendar conversions. -/

def daysFromCivil (y m d : Int) : Int :=
  let y' := if m ≤ 2 then y - 1 else y
  let era := Int.fdiv y' 400
  let yoe := y' - era * 400
  let mp := Int.emod (m + 9) 12
  let doy := Int.fdiv (153 * mp + 2) 5 + d - 1
  let doe := yoe * 365 + Int.fdiv yoe 4 - Int.fdiv yoe 100 + doy
  era * 146097 + doe - 719468

def civilFromDays (z : Int) : Int × Int × Int :=
  let z' := z + 719468
  let era := Int.fdiv z' 146097
  let doe := z' - era * 146097
  let yoe := Int.fdiv (doe - Int.fdiv doe 1460 + Int.fdiv doe 36524 - Int.fdiv doe 146096) 365
  let y := yoe + era * 400
  let doy := doe - (365 * yoe + Int.fdiv yoe 4 - Int.fdiv yoe 100)
  let mp := Int.fdiv (5 * doy + 2) 153
  let d := doy - Int.fdiv (153 * mp + 2) 5 + 1
  let m := mp + (if mp < 10 then 3 else -9)
  (if m ≤ 2 then y + 1 else y, m, d)

/-- `new Date(year, month0, day)` (JS constructor: 0-based month, with
out-of-range months and days normalised), as a civil day number. -/
def mkJsDate (y m0 d : Int) : Int :=
  let ym := y * 12 + m0
  let yy := Int.fdiv ym 12
  let mm := Int.emod ym 12
  daysFromCivil yy (mm + 1) 1 + (d - 1)

/-- `Date.prototype.getDay()`: 0 = Sunday … 6 = Saturday. -/
def dayOfWeekJs (day : Int) : Int := (day + 4) % 7

def dayMs : Int := 86400000
def msStart (day : Int) : Int := day * dayMs
/-- End of day after `setHours(23, 59, 59, 999)`. -/
def msEnd (day : Int) : Int := day * dayMs + 86399999

/-- The Monday offset of `filterDataByPeriod`:
`dayOfWeek === 0 ? -6 : 1 - dayOfWeek` applied to the anchor. -/
def mondayOf (day : Int) : Int :=
  day + (if dayOfWeekJs day = 0 then -6 else 1 - dayOfWeekJs day)

/-- Number of days in month `m` (1-based) of year `y`. -/
def daysInMonth (y m : Int) : Int :=
  mkJsDate y m 0 - daysFromCivil y m 1 + 1

/-- The start/end window (in ms) that `filterDataByPeriod` computes from an
anchor day for a known period; `none` for an unknown period keyword. -/
def windowFor (period : String) (anchor : Int) : Option (Int × Int) :=
  if period = "daily" then some (msStart anchor, msEnd anchor)
  else if period = "weekly" then
    some (msStart (mondayOf anchor), msEnd (mondayOf anchor + 6))
  else if period = "monthly" then
    let c := civilFromDays anchor
    some (msStart (mkJsDate c.1 (c.2.1 - 1) 1), msEnd (mkJsDate c.1 c.2.1 0))
  else none

/-! ## Date parsing -/

/-- The 12-entry month lexicon of `parseIndonesianDate` (lowercased input). -/
def monthNum (w : List Char) : Option Int :=
  if w = "januari".data then some 1 else if w = "februari".data then some 2
  else if w = "maret".data then some 3 else if w = "april".data then some 4
  else if w = "mei".data then some 5 else if w = "juni".data then some 6
  else if w = "juli".data then some 7 else if w = "agustus".data then some 8
  else if w = "september".data then some 9 else if w = "oktober".data then some 10
  else if w = "november".data then some 11 else if w = "desember".data then some 12
  else none

/-- `String.prototype.padStart(2, '0')`. -/
def padStart2 (l : List Char) : List Char :=
  if l.length < 2 then List.replicate (2 - l.length) '0' ++ l else l

def allDigitsL (l : List Char) : Bool := !l.isEmpty && l.all (·.isDigit)

def digitsToNat (l : List Char) : Nat :=
  l.foldl (fun n c => n * 10 + (c.toNat - 48)) 0

/-- `parseIndonesianDate`: split the lowercased string on single spaces; with
at least 4 parts, take part 1 as the day (padded to two digits), look part 2
up in the month lexicon, part 3 as the year, and build
`new Date("YYYY-MM-DD")` — a UTC-midnight instant in ms when the ISO string
is a valid calendar date, otherwise an Invalid Date.  `none` covers both the
source's `null` (month token unrecognised / fewer than 4 parts) and an
Invalid Date: the filter treats the two identically (every comparison with
`NaN` is false, so the row is dropped).  The weekday token (part 0) is never
inspected. -/
def parseIndonesianDate (s : String) : Option Int :=
  let parts := splitOnCharL ' ' (lowerL s.data)
  if parts.length ≥ 4 then
    let dayL := padStart2 (parts.getD 1 [])
    match monthNum (parts.getD 2 []) with
    | some m =>
      let yearL := parts.getD 3 []
      if yearL.length = 4 && allDigitsL yearL && dayL.length = 2 && allDigitsL dayL then
        let y : Int := digitsToNat yearL
        let d : Int := digitsToNat dayL
        if 1 ≤ d && d ≤ daysInMonth y m then some (msStart (daysFromCivil y m d))
        else none
      else none
    | none => none
  else none

/-- Grab exactly `n` digits. -/
def grabDigits : Nat → List Char → Option (List Char × List Char)
  | 0, cs => some ([], cs)
  | n + 1, [] => (n : Nat) |> fun _ => none
  | n + 1, c :: cs =>
    if c.isDigit then
      match grabDigits n cs with
      | some (ds, rest) => some (c :: ds, rest)
      | none => none
    else none

def isDateSep (c : Char) : Bool := c = '/' || c = '-'

/-- Try the anchor pattern `(\d{1,2})[\/\-](\d{1,2})[\/\-](\d{4})` anchored
at the current position (greedy `\d{1,2}`: two digits first, then one). -/
def tryDateAt (cs : List Char) : Option (Nat × Nat × Nat) :=
  (tryLen 2).orElse fun _ => tryLen 1
where
  tryLen (l1 : Nat) : Option (Nat × Nat × Nat) :=
    match grabDigits l1 cs with
    | some (d1, r1) =>
      match r1 with
      | s1 :: r2 =>
        if isDateSep s1 then
          (try2 d1 r2 2).orElse fun _ => try2 d1 r2 1
        else none
      | [] => none
    | none => none
  try2 (d1 : List Char) (r2 : List Char) (l2 : Nat) : Option (Nat × Nat × Nat) :=
    match grabDigits l2 r2 with
    | some (d2, r3) =>
      match r3 with
      | s2 :: r4 =>
        if isDateSep s2 then
          match grabDigits 4 r4 with
          | some (d3, _) => some (digitsToNat d1, digitsToNat d2, digitsToNat d3)
          | none => none
      else none
      | [] => none
    | none => none

/-- First match of the custom-date pattern anywhere in the string
(`customDate.match(/(\d{1,2})[\/\-](\d{1,2})[\/\-](\d{4})/)`), as
`(day, month, year)`. -/
def scanDate : List Char → Option (Nat × Nat × Nat)
  | [] => none
  | c :: t =>
    match tryDateAt (c :: t) with
    | some r => some r
    | none => scanDate t

def scanDateStr (s : String) : Option (Nat × Nat × Nat) := scanDate s.data

/-! ## The period filter -/

/-- Does a stored row pass the filter loop?  `data[i][0]` must be truthy,
parse to a date, and fall inside the window; with an undefined window
(`startDate`/`endDate` never assigned — unparseable custom date or unknown
period in the custom branch) every comparison is false. -/
def rowPass (w : Option (Int × Int)) (row : List String) : Bool :=
  let dateStr := row.getD 0 ""
  if dateStr.isEmpty then false
  else
    match parseIndonesianDate dateStr with
    | some ms =>
      match w with
      | some (s, e) => decide (s ≤ ms) && decide (ms ≤ e)
      | none => false
    | none => false

/-- `filterDataByPeriod(data, period, customDate)` (src/index.js lines
260–335).  `today` is the civil day of `new Date()` after
`setHours(0,0,0,0)`; `customDate = none` is the omitted argument (and an
empty string is equally falsy). -/
def filterDataByPeriod (today : Int) (data : List (List String)) (period : String)
    (customDate : Option String) : List (List String) :=
  let truthy := match customDate with | some s => !s.isEmpty | none => false
  if truthy then
    let w : Option (Int × Int) :=
      match scanDateStr ((customDate.getD "")) with
      | some (d, m, y) => windowFor period (mkJsDate (y : Int) ((m : Int) - 1) (d : Int))
      | none => none
    (data.drop 1).filter (rowPass w)
  else
    match windowFor period today with
    | some w => (data.drop 1).filter (rowPass (some w))
    | none => data.drop 1

/-! ## The `/aktivasi` write path of the enhanced bot -/

/-- Normalisation used on both sides of the duplicate check:
`x.toUpperCase().trim()`. -/
def normAo (s : String) : String := jsTrim (jsUpper s)

/-- The duplicate check of the `/aktivasi` handler (src/index.js lines
987–998): scan data rows 1.. for a row whose column 1 equals the candidate
under uppercase + trim. -/
def isDuplicate (ao : String) (data : List (List String)) : Bool :=
  (data.drop 1).any fun r => normAo (r.getD 1 "") == normAo ao

inductive Outcome where
  | emptyInput
  | incomplete
  | duplicate
  | saved
deriving Repr, DecidableEq

/-- The `/aktivasi` handler after user resolution (src/index.js lines
794–1024): `inputText` is the text with the `/aktivasi` prefix stripped and
trimmed, `tanggal` the formatted current date, `data` the current sheet.
Returns the new sheet contents and what was reported. -/
def aktivasiHandler (inputText : String) (userRow : List String) (username : String)
    (tanggal : String) (data : List (List String)) : List (List String) × Outcome :=
  if inputText.isEmpty then (data, .emptyInput)
  else
    let parsed := parseAktivasi inputText userRow username
    if parsed.ao.isEmpty then (data, .incomplete)
    else if isDuplicate parsed.ao data then (data, .duplicate)
    else
      (data ++ [[tanggal, parsed.ao, parsed.workorder, parsed.serviceNo,
                 parsed.customerName, parsed.owner, parsed.workzone, parsed.snOnt,
                 parsed.nikOnt, parsed.stbId, parsed.nikStb, parsed.teknisi]],
       .saved)

/-! ## The `/clear` duplicate-cleanup handler -/

/-- `updateSheetData(sheet, "A1:L" + values.length, values)`: a ranged update
overwrites exactly the first `values.length` row positions; every later row
keeps its previous contents. -/
def updateRows (store : List (List String)) (values : List (List String)) :
    List (List String) :=
  values ++ store.drop values.length

/-- The dedup scan of `/clear` (src/index.js lines 763–776): walk the data
rows keeping the first row for each non-empty normalised AO; returns the
kept rows and the duplicate count. -/
def scanRows : List (List String) → List String → List (List String) × Nat
  | [], _ => ([], 0)
  | r :: rest, seen =>
    if !seen.contains (normAo (r.getD 1 "")) && !(normAo (r.getD 1 "")).isEmpty then
      (r :: (scanRows rest (normAo (r.getD 1 "") :: seen)).1,
       (scanRows rest (normAo (r.getD 1 "") :: seen)).2)
    else
      ((scanRows rest seen).1, (scanRows rest seen).2 + 1)

/-- The `/clear` handler (src/index.js lines 753–785): with more than one
row and at least one duplicate, write `header :: kept` back over the range
`A1:L(kept.length + 1)`; otherwise leave the sheet alone. -/
def clearHandler (data : List (List String)) : List (List String) :=
  if data.length ≤ 1 then data
  else
    match data with
    | [] => data
    | hdr :: rows =>
      if (scanRows rows []).2 = 0 then hdr :: rows
      else updateRows (hdr :: rows) (hdr :: (scanRows rows []).1)

/-! ## The legacy minimal bot (src/unnamed/part_000) -/

/-- Legacy `findByPattern`: first trimmed line on which the regex tests
true; its first capture (or `''`), trimmed. -/
def findByPat (lns : List String) (es : List Elem) : String :=
  match lns.find? (fun l => testPat es l) with
  | some l =>
    match firstCapture es l with
    | some g => jsTrim g
    | none => ""
  | none => ""

/-- Legacy `getField(label, fallbackPattern)`. -/
def getFieldL (lns : List String) (label : String) (es : List Elem) : String :=
  jsOr (getValue lns label) (findByPat lns es)

/-- Legacy `/AO[ :|]+([A-Z0-9]+)/i`-style patterns. -/
def patAoL : List Elem := [litCI "AO", spcpPlus, capPlus alnumCI]
def patWorkorderL : List Elem := [litCI "WORKORDER", spcpPlus, capPlus alnumCI]
def patServiceNoL : List Elem := [litCI "SERVICE NO", spcpPlus, capPlus digitChar]
def patCustNameL : List Elem :=
  [litCI "CUSTOMER NAME", spcpPlus, .cls dotNoNl 1 none true true]
def patWorkzoneL : List Elem := [litCI "WORKZONE", spcpPlus, capPlus alnumCI]
def patSnOntL : List Elem := [litCI "SN ONT", spcpPlus, capPlus alnumCI]
def patNikOntL : List Elem := [litCI "NIK ONT", spcpPlus, capPlus digitChar]
def patStbL : List Elem := [litCI "STB ID", spcpPlus, capPlus alnumCI]
def patNikStbL : List Elem := [litCI "NIK STB", spcpPlus, capPlus digitChar]
def patTeknisiL : List Elem := [litCI "TEKNISI", spcpPlus, .cls dotNoNl 1 none true true]
/-- Legacy `/OWNER\s+\w+/i` (tested per line). -/
def patOwnerLineL : List Elem := [litCI "OWNER", wsPlus, .cls wordChar 1 none true false]

/-- `str.split(sub)` for a literal multi-character separator (leftmost,
non-overlapping). -/
def splitOnSubL (sep : List Char) : Nat → List Char → List (List Char)
  | 0, cs => [cs]
  | _ + 1, [] => [[]]
  | fuel + 1, c :: t =>
    if startsWithL sep (c :: t) then
      [] :: splitOnSubL sep fuel ((c :: t).drop sep.length)
    else
      match splitOnSubL sep fuel t with
      | [] => [[c]]
      | p :: ps => (c :: p) :: ps

/-- The legacy owner resolution: `getValue('OWNER')`, else the part after
`'OWNER'` on a line matching `/OWNER\s+\w+/i`, else keyword sniffing. -/
def legacyOwner (inputText : String) (lns : List String) : String :=
  let v := getValue lns "OWNER"
  if !v.isEmpty then v
  else
    match lns.find? (fun l => testPat patOwnerLineL l) with
    | some l =>
      jsTrim (String.mk (((splitOnSubL "OWNER".data (l.data.length + 1) l.data).getD 1 [])))
    | none =>
      let u := jsUpper inputText
      if strIncludes u "BGES" then "BGES"
      else if strIncludes u "WMS" then "WMS"
      else if strIncludes u "TSEL" then "TSEL"
      else ""

/-- The legacy `/aktivasi` parser (src/unnamed/part_000 lines 150–194): every
field, including `teknisi`, comes from the message text. -/
def legacyParse (inputText : String) : List String :=
  let lns := linesOf inputText
  let owner := legacyOwner inputText lns
  let ao := getFieldL lns "AO" patAoL
  let workorder := getFieldL lns "WORKORDER" patWorkorderL
  let serviceNo := getFieldL lns "SERVICE NO" patServiceNoL
  let customerName := getFieldL lns "CUSTOMER NAME" patCustNameL
  let workzone := getFieldL lns "WORKZONE" patWorkzoneL
  let snOnt := getFieldL lns "SN ONT" patSnOntL
  let nikOnt := getFieldL lns "NIK ONT" patNikOntL
  let stbId := getFieldL lns "STB ID" patStbL
  let nikStb := getFieldL lns "NIK STB" patNikStbL
  let teknisi := getFieldL lns "TEKNISI" patTeknisiL
  [ao, workorder, serviceNo, customerName, owner, workzone, snOnt, nikOnt,
   stbId, nikStb, teknisi]

/-- The legacy handler after user resolution: requires `SN ONT` and
`NIK ONT`, then appends `[tanggal, ao, …, teknisi]` (no duplicate check).
Returns the new sheet and whether a row was saved. -/
def legacyAktivasiHandler (inputText : String) (tanggal : String)
    (data : List (List String)) : List (List String) × Bool :=
  if inputText.isEmpty then (data, false)
  else
    let f := legacyParse inputText
    if (f.getD 6 "").isEmpty || (f.getD 7 "").isEmpty then (data, false)
    else (data ++ [tanggal :: f], true)

/-! ## Tally and ranking (the `/ps`, `/weekly`, `/monthly` report handlers)

`teknisiMap[key] = (teknisiMap[key] || 0) + 1` builds a JS object; the
object is modelled as an association list in property-insertion order.
`Object.entries` enumerates integer-like keys first in ascending numeric
order, then the remaining keys in insertion order; `Array.prototype.sort`
(stable since ES2019) with comparator `(a, b) => b[1] - a[1]` is the stable
descending sort by count. -/

/-- `(row[i] || '-').toUpperCase()`. -/
def groupKey (row : List String) (i : Nat) : String :=
  jsUpper (jsOr (row.getD i "") "-")

/-- `m[k] = (m[k] || 0) + 1` on the association-list model of a JS object:
bump an existing key in place, otherwise append it. -/
def tallyInsert (m : List (String × Nat)) (k : String) : List (String × Nat) :=
  if m.any (fun e => e.1 == k) then
    m.map fun e => if e.1 == k then (e.1, e.2 + 1) else e
  else m ++ [(k, 1)]

def tallyCol (rows : List (List String)) (i : Nat) : List (String × Nat) :=
  rows.foldl (fun m r => tallyInsert m (groupKey r i)) []

/-- Is `s` a canonical array-index property key (all digits, no leading
zero except `"0"` itself, value below 2^32 - 1)?  Such keys are enumerated
first in ascending numeric order. -/
def isIndexKey (s : String) : Bool :=
  allDigitsL s.data && (s.data.head? ≠ some '0' || s == "0") &&
    digitsToNat s.data < 4294967295

/-- Stable ascending insertion by numeric key value. -/
def insAsc (x : String × Nat) : List (String × Nat) → List (String × Nat)
  | [] => [x]
  | y :: ys =>
    if digitsToNat x.1.data ≤ digitsToNat y.1.data then x :: y :: ys
    else y :: insAsc x ys

/-- `Object.entries(m)`: integer-like keys first, ascending numerically,
then the remaining keys in insertion order. -/
def jsEntries (m : List (String × Nat)) : List (String × Nat) :=
  ((m.filter fun e => isIndexKey e.1).foldr insAsc []) ++
    m.filter fun e => !isIndexKey e.1

/-- One step of the stable descending-by-count sort: insert `x` before the
first entry with a strictly smaller or equal-later count, i.e. after
nothing it ties with that came earlier. -/
def insDesc (x : String × Nat) : List (String × Nat) → List (String × Nat)
  | [] => [x]
  | y :: ys => if y.2 ≤ x.2 then x :: y :: ys else y :: insDesc x ys

/-- `entries.sort((a, b) => b[1] - a[1])`, a stable sort, as its canonical
implementation by stable insertion. -/
def rankDesc (l : List (String × Nat)) : List (String × Nat) := l.foldr insDesc []

/-- The ranked tally of column `i` over the (already filtered) data rows —
the list the report handlers print in order. -/
def psRanking (rows : List (List String)) (i : Nat) : List (String × Nat) :=
  rankDesc (jsEntries (tallyCol rows i))

/-! ## Derived forms used to state the claims -/

/-- The reference id the BGES/WMS branch derives from one `AO|…SC…` match
string: re-match `/SC(\d{6,})/` and prefix `SC`. -/
def scRefOf (m : String) : String :=
  match firstCapture patScCap m with
  | some d => "SC" ++ d
  | none => ""

/-- The customer name derived from one customer-line match string: re-match
the customer pattern and trim its capture. -/
def custNameOf (c : String) : String :=
  match firstCapture patCustomerB c with
  | some g => if g.isEmpty then "" else jsTrim g
  | none => ""

/-! ## Concrete fixtures -/

/-- A USER-sheet row: `[id, handle, role, status]`. -/
def userFix : List String := ["1", "@tek", "USER", "AKTIF"]

def hdrRow : List String :=
  ["TANGGAL", "AO", "WORKORDER", "SERVICE NO", "CUSTOMER NAME", "OWNER",
   "WORKZONE", "SN ONT", "NIK ONT", "STB ID", "NIK STB", "TEKNISI"]

/-- A BGES text with two `AO|…SC…` matches and one customer-name line. -/
def fixtureB : String :=
  "HSI LOG\nAO| MDN SC111222 ok\nAO| KDR SC333444 done\n01/02/2025 10:30 5 JOHN DOE  END"

/-- The end-to-end TSEL fixture: `AO : SC000111`, no `WORKORDER` field
(the `DATE CREATED` marker makes it TSEL-classified). -/
def fixtureT : String :=
  "DATE CREATED : 01/09/2025\nAO : SC000111\nSERVICE NO : 12345678901\nSN ONT : ZTEGDA00001\nNIK ONT : 111222333"

/-- A TSEL fixture with an explicit `WORKORDER` field. -/
def fixtureT2 : String := "WORKORDER : WO123\nAO : SC9"

/-- A submission whose AO differs from the stored one only by case and a
trailing space. -/
def textDup : String := "AO : sc123456\nSN ONT : ZTEG1"

def rowDup : List String :=
  ["Senin, 1 September 2025", "SC123456 ", "SC123456", "", "", "BGES", "", "",
   "", "", "", "tek"]

def storeDup : List (List String) := [hdrRow, rowDup]

def rowSep15 : List String := ["Senin, 15 September 2025", "SC1"]

/-- A stored row whose weekday token is not an Indonesian weekday. -/
def rowBadDay : List String := ["Xyzday, 15 September 2025", "SC1"]

/-- Rows whose owner column (index 5) reads A B C B C B C B C B C A A:
counts A↦3, B↦5, C↦5, first encounters in the order A, B, C. -/
def rowsABC : List (List String) :=
  (["A", "B", "C", "B", "C", "B", "C", "B", "C", "B", "C", "A", "A"]).map
    fun o => ["", "", "", "", "", o]

/-- Two rows whose workzone column (index 6) holds the integer-like keys
`"20"` then `"10"`. -/
def rowsNumericWz : List (List String) :=
  [["", "", "", "", "", "", "20"], ["", "", "", "", "", "", "10"]]

def legacyTextBudi : String := "SN ONT : Z1\nNIK ONT : 11\nTEKNISI : BUDI"

def legacyTextAndi : String := "SN ONT : Z1\nNIK ONT : 11\nTEKNISI : ANDI"

/-- A sheet with one duplicated AO among three data rows. -/
def rowsClear : List (List String) :=
  [["Senin, 1 September 2025", "SC111111"], ["Senin, 2 September 2025", "SC111111"],
   ["Senin, 3 September 2025", "SC222222"]]

/-! # Theorems

One theorem per claim of the specification, with helper lemmas first. -/

/-! ## Claims about the format classifier -/

/-- **C1.** For every input text, the format classifier returns exactly one
tag, chosen first-match-wins: TSEL if the uppercased text contains
`CHANNEL : DIGIPOS`, `DATE CREATED` or `WORKORDER : WO` (containment in the
uppercased text is exactly case-insensitive containment of these uppercase
markers); else BGES on `INDIBIZ`/`HSI`; else WMS on `WMS`/`MWS`; else the
manual fallback tag (the empty string, which selects the MANUAL label-based
extractor branch). -/
theorem detectOwner_first_match_priority (t : String) :
    (detectOwner t = "TSEL" ∨ detectOwner t = "BGES" ∨ detectOwner t = "WMS" ∨
      detectOwner t = "") ∧
    (detectOwner t = "TSEL" ↔ hasTselMarker t = true) ∧
    (detectOwner t = "BGES" ↔ (hasTselMarker t = false ∧ hasBgesMarker t = true)) ∧
    (detectOwner t = "WMS" ↔
      (hasTselMarker t = false ∧ hasBgesMarker t = false ∧ hasWmsMarker t = true)) ∧
    (detectOwner t = "" ↔
      (hasTselMarker t = false ∧ hasBgesMarker t = false ∧ hasWmsMarker t = false)) := by
  unfold detectOwner
  cases h1 : hasTselMarker t <;> cases h2 : hasBgesMarker t <;>
    cases h3 : hasWmsMarker t <;> simp

/-! ## Period windows (C3) -/

/-- **C3.** For the anchor 15 September 2025 (a Monday: `getDay` = 1) the
computed windows are: daily `[2025-09-15 00:00:00.000, 2025-09-15
23:59:59.999]` (`msEnd` is `msStart + 86399999`); weekly `[2025-09-15,
2025-09-21]` with full-day bounds; monthly `[2025-09-01, 2025-09-30]` with
full-day bounds.  The anchor string `15/09/2025` parses to that day, and for
every anchor day the weekly window starts at
`anchor − ((dayOfWeek + 6) mod 7)` days, the Monday of its week. -/
theorem period_windows_sept15 :
    windowFor "daily" (daysFromCivil 2025 9 15) =
      some (msStart (daysFromCivil 2025 9 15), msEnd (daysFromCivil 2025 9 15)) ∧
    windowFor "weekly" (daysFromCivil 2025 9 15) =
      some (msStart (daysFromCivil 2025 9 15), msEnd (daysFromCivil 2025 9 21)) ∧
    windowFor "monthly" (daysFromCivil 2025 9 15) =
      some (msStart (daysFromCivil 2025 9 1), msEnd (daysFromCivil 2025 9 30)) ∧
    dayOfWeekJs (daysFromCivil 2025 9 15) = 1 ∧
    scanDateStr "15/09/2025" = some (15, 9, 2025) ∧
    mkJsDate 2025 8 15 = daysFromCivil 2025 9 15 ∧
    msEnd (daysFromCivil 2025 9 15) = msStart (daysFromCivil 2025 9 15) + 86399999 ∧
    ∀ d : Int, mondayOf d = d - (dayOfWeekJs d + 6) % 7 := by
  refine ⟨by decide, by decide, by decide, by decide, by decide, by decide,
    by decide, fun d => ?_⟩
  unfold mondayOf dayOfWeekJs
  split <;> omega

/-! ## The period filter on unparseable anchors (C7) -/

theorem rowPass_none_eq_false (row : List String) : rowPass none row = false := by
  unfold rowPass
  cases hp : parseIndonesianDate (row.getD 0 "") <;> simp only [hp, ite_self]

theorem filter_rowPass_none (l : List (List String)) : l.filter (rowPass none) = [] := by
  induction l with
  | nil => rfl
  | cons a t ih => simp [List.filter_cons, rowPass_none_eq_false, ih]

/-- **C7 (amended).** If the user-supplied anchor string is truthy but
contains no `DD/MM/YYYYY`-style match, `startDate`/`endDate` are never
assigned, every row comparison is false, and the filter returns the empty
list — for every period keyword, every data set and every current day.  (The
claim said it behaves as if called with no anchor; it does not.) -/
theorem filter_unmatched_anchor_empty (today : Int) (data : List (List String))
    (period : String) (s : String) (hs : s.isEmpty = false)
    (hn : scanDateStr s = none) :
    filterDataByPeriod today data period (some s) = [] := by
  unfold filterDataByPeriod
  simp only [hs, hn, Bool.not_false, if_true, Option.getD_some]
  exact filter_rowPass_none _

/-- **C7 (counterexample).** A concrete store holding a record dated
`Senin, 15 September 2025`, with "now" on that same day: the daily filter
with the unparseable anchor `"besok"` returns `[]`, while the same call with
no anchor returns the record — so an unparseable anchor does *not* behave
like the absent anchor. -/
theorem filter_unmatched_anchor_not_like_now :
    filterDataByPeriod (daysFromCivil 2025 9 15) [hdrRow, rowSep15] "daily"
      (some "besok") = [] ∧
    filterDataByPeriod (daysFromCivil 2025 9 15) [hdrRow, rowSep15] "daily"
      none = [rowSep15] :=
  ⟨by decide, by decide⟩

/-- Witness for C7: the amended theorem applied at a concrete input. -/
theorem filter_unmatched_anchor_empty_witness :
    filterDataByPeriod (daysFromCivil 2025 9 15) [hdrRow, rowSep15] "weekly"
      (some "besok") = [] :=
  filter_unmatched_anchor_empty (daysFromCivil 2025 9 15) [hdrRow, rowSep15]
    "weekly" "besok" (by decide) (by decide)

/-! ## Malformed stored dates (C8) -/

theorem rowPass_eq_true_parse {w : Option (Int × Int)} {row : List String}
    (h : rowPass w row = true) :
    ∃ ms, parseIndonesianDate (row.getD 0 "") = some ms := by
  cases hp : parseIndonesianDate (row.getD 0 "") with
  | some ms => exact ⟨ms, rfl⟩
  | none =>
    exfalso
    unfold rowPass at h
    simp only [hp, ite_self] at h
    exact Bool.false_ne_true h

theorem mem_filter_rowPass {l : List (List String)} {w : Option (Int × Int)}
    {r : List String} (h : r ∈ l.filter (rowPass w)) :
    ∃ ms, parseIndonesianDate (r.getD 0 "") = some ms :=
  rowPass_eq_true_parse (List.mem_filter.mp h).2

theorem windowFor_known (period : String)
    (hp : period = "daily" ∨ period = "weekly" ∨ period = "monthly") (a : Int) :
    ∃ w, windowFor period a = some w := by
  rcases hp with h | h | h <;> subst h <;> simp [windowFor]

/-- **C8 (amended).** A stored record whose date string has an unrecognised
*month* token (or fewer than four space-separated parts) parses to `null`
and is excluded from the result of every daily/weekly/monthly filter call:
every row in such a result has a parseable date.  (Parsing and filtering are
total functions — nothing throws.)  The weekday token, however, is never
inspected, so an unrecognised weekday alone does not exclude a record. -/
theorem unparseable_dates_excluded :
    (∀ s : String,
      ((splitOnCharL ' ' (lowerL s.data)).length < 4 ∨
        monthNum ((splitOnCharL ' ' (lowerL s.data)).getD 2 []) = none) →
      parseIndonesianDate s = none) ∧
    (∀ (today : Int) (data : List (List String)) (period : String)
      (cd : Option String) (r : List String),
      (period = "daily" ∨ period = "weekly" ∨ period = "monthly") →
      r ∈ filterDataByPeriod today data period cd →
      ∃ ms, parseIndonesianDate (r.getD 0 "") = some ms) := by
  constructor
  · intro s h
    unfold parseIndonesianDate
    rcases h with h | h
    · rw [if_neg (by omega)]
    · by_cases hl : (splitOnCharL ' ' (lowerL s.data)).length ≥ 4
      · rw [if_pos hl, h]
      · rw [if_neg hl]
  · intro today data period cd r hp hr
    obtain ⟨w0, hw0⟩ := windowFor_known period hp today
    unfold filterDataByPeriod at hr
    rcases cd with _ | s
    · simp only [Bool.false_eq_true, if_false, hw0] at hr
      exact mem_filter_rowPass hr
    · by_cases he : s.isEmpty
      · simp only [he, Bool.not_true, Bool.false_eq_true, if_false, hw0] at hr
        exact mem_filter_rowPass hr
      · simp only [eq_false_of_ne_true he, Bool.not_false, if_true] at hr
        exact mem_filter_rowPass hr

/-- **C8 (counterexample).** `Xyzday` is not an Indonesian weekday, yet
`parseIndonesianDate` accepts the record (the weekday token is ignored) and
the daily filter *includes* it — the record is not excluded from every
period filter call, contrary to the claim's "unrecognized weekday" case. -/
theorem unrecognized_weekday_still_included :
    parseIndonesianDate "Xyzday, 15 September 2025" =
      some (msStart (daysFromCivil 2025 9 15)) ∧
    filterDataByPeriod (daysFromCivil 2025 9 15) [hdrRow, rowBadDay] "daily"
      none = [rowBadDay] :=
  ⟨by decide, by decide⟩

/-- Witness for C8: the amended theorem applied at concrete inputs — an
unrecognised month parses to `none`, and a row found in a daily filter
result has a parseable date. -/
theorem unparseable_dates_excluded_witness :
    parseIndonesianDate "Senin, 15 Bulanx 2025" = none ∧
    ∃ ms, parseIndonesianDate (rowSep15.getD 0 "") = some ms :=
  ⟨unparseable_dates_excluded.1 "Senin, 15 Bulanx 2025" (by decide),
   unparseable_dates_excluded.2 (daysFromCivil 2025 9 15) [hdrRow, rowSep15]
     "daily" none rowSep15 (Or.inl rfl) (by decide)⟩

/-! ## The duplicate check (C4) -/

/-- **C4.** The duplicate check reports a duplicate exactly when the
candidate reference id matches some existing data row's column-1 value under
uppercase-and-trim comparison; whenever it fires, the `/aktivasi` handler
replies "duplicate" and returns the store unchanged — in particular for the
concrete store holding `"SC123456 "` and a new submission whose AO parses to
`"sc123456"`. -/
theorem duplicate_check_case_trim_insensitive :
    (∀ (cand : String) (data : List (List String)),
      isDuplicate cand data = true ↔
        ∃ r ∈ data.drop 1, normAo (r.getD 1 "") = normAo cand) ∧
    (∀ (t : String) (u : List String) (un tg : String) (data : List (List String)),
      t.isEmpty = false → (parseAktivasi t u un).ao.isEmpty = false →
      isDuplicate (parseAktivasi t u un).ao data = true →
      aktivasiHandler t u un tg data = (data, .duplicate)) ∧
    aktivasiHandler textDup userFix "uname" "TGL" storeDup = (storeDup, .duplicate) := by
  refine ⟨fun cand data => ?_, fun t u un tg data h1 h2 h3 => ?_, by decide⟩
  · unfold isDuplicate
    rw [List.any_eq_true]
    constructor
    · rintro ⟨r, hr, he⟩
      exact ⟨r, hr, by simpa using he⟩
    · rintro ⟨r, hr, he⟩
      exact ⟨r, hr, by simpa using he⟩
  · unfold aktivasiHandler
    simp only [h1, h2, h3, Bool.false_eq_true, if_false, if_true]

/-- Witness for C4: the rejection branch of the theorem applied at the
concrete case/whitespace-variant fixture. -/
theorem duplicate_check_witness :
    aktivasiHandler textDup userFix "uname" "TGL" storeDup = (storeDup, .duplicate) :=
  duplicate_check_case_trim_insensitive.2.1 textDup userFix "uname" "TGL" storeDup
    (by decide) (by decide) (by decide)

/-! ## The `/clear` cleanup frame effect (C10) -/

theorem scanRows_length (rows : List (List String)) :
    ∀ seen, (scanRows rows seen).1.length + (scanRows rows seen).2 = rows.length := by
  induction rows with
  | nil => intro seen; rfl
  | cons r t ih =>
    intro seen
    unfold scanRows
    split
    · have h1 := ih (normAo (r.getD 1 "") :: seen)
      simp only [List.length_cons]
      omega
    · have h1 := ih seen
      simp only [List.length_cons]
      omega

/-- **C10.** When `k` of the `n` data rows survive the `/clear` dedup scan
and `k < n`, the handler writes `header :: survivors` over exactly the first
`k + 1` row positions (range `A1:L(k+1)`): the first `k + 1` rows of the
resulting store are the header and the survivors, every row position after
`k + 1` keeps its previous contents, and the store length is unchanged. -/
theorem clear_overwrites_only_prefix (hdr : List String) (rows : List (List String))
    (hk : (scanRows rows []).1.length < rows.length) :
    (clearHandler (hdr :: rows)).take ((scanRows rows []).1.length + 1) =
      hdr :: (scanRows rows []).1 ∧
    (clearHandler (hdr :: rows)).drop ((scanRows rows []).1.length + 1) =
      (hdr :: rows).drop ((scanRows rows []).1.length + 1) ∧
    (clearHandler (hdr :: rows)).length = (hdr :: rows).length := by
  have hlen := scanRows_length rows []
  have hck : clearHandler (hdr :: rows) =
      (hdr :: (scanRows rows []).1) ++
        (hdr :: rows).drop ((scanRows rows []).1.length + 1) := by
    unfold clearHandler
    rw [if_neg (by simp only [List.length_cons]; omega)]
    show (if (scanRows rows []).2 = 0 then hdr :: rows
      else updateRows (hdr :: rows) (hdr :: (scanRows rows []).1)) = _
    rw [if_neg (by omega)]
    unfold updateRows
    simp
  refine ⟨?_, ?_, ?_⟩
  · rw [hck]
    have h1 : (scanRows rows []).1.length + 1 = (hdr :: (scanRows rows []).1).length := by
      simp
    rw [h1, List.take_left]
  · rw [hck]
    have h1 : (scanRows rows []).1.length + 1 = (hdr :: (scanRows rows []).1).length := by
      simp
    rw [h1, List.drop_left]
  · rw [hck]
    simp only [List.length_append, List.length_cons, List.length_drop]
    omega

/-- Witness for C10: the theorem applied to a concrete store with three data
rows of which two survive. -/
theorem clear_overwrites_only_prefix_witness :
    (clearHandler (hdrRow :: rowsClear)).take 3 =
      hdrRow :: (scanRows rowsClear []).1 ∧
    (clearHandler (hdrRow :: rowsClear)).drop 3 = (hdrRow :: rowsClear).drop 3 ∧
    (clearHandler (hdrRow :: rowsClear)).length = (hdrRow :: rowsClear).length :=
  clear_overwrites_only_prefix hdrRow rowsClear (by decide)

/-! ## TSEL extraction (C5) and BGES/WMS extraction (C2) -/

theorem parseAktivasi_tsel {t : String} (u : List String) (un : String)
    (ho : detectOwner t = "TSEL") :
    parseAktivasi t u un = tselRecord t (stripFirstAt (jsOr (u.getD 1 "") un)) := by
  unfold parseAktivasi
  rw [ho]
  simp

theorem parseAktivasi_bges {t : String} (u : List String) (un : String)
    (ho : detectOwner t = "BGES" ∨ detectOwner t = "WMS") :
    parseAktivasi t u un =
      bgesRecord t (detectOwner t) (stripFirstAt (jsOr (u.getD 1 "") un)) := by
  unfold parseAktivasi
  rcases ho with h | h <;> rw [h] <;> simp

theorem parseAktivasi_manual {t : String} (u : List String) (un : String)
    (h1 : ¬detectOwner t = "TSEL") (h2 : ¬detectOwner t = "BGES")
    (h3 : ¬detectOwner t = "WMS") :
    parseAktivasi t u un = manualRecord t (stripFirstAt (jsOr (u.getD 1 "") un)) := by
  unfold parseAktivasi
  simp [h1, h2, h3]

/-- **C5.** For every TSEL-classified text the extracted `workorder` is the
trimmed capture of the explicit `WORKORDER` field when that pattern
matches (and captures a non-blank value), and otherwise equals the
extracted `ao`; through the whole write path, the end-to-end fixture with
`AO : SC000111` and no `WORKORDER` field persists a row with
`referenceId = workOrderId = "SC000111"`. -/
theorem tsel_workorder_falls_back_to_ao :
    (∀ (t : String) (u : List String) (un c : String),
      detectOwner t = "TSEL" →
      (firstCapture patWorkorderT t = some c → c.isEmpty = false →
        (jsTrim c).isEmpty = false → (parseAktivasi t u un).workorder = jsTrim c) ∧
      (firstCapture patWorkorderT t = none →
        (parseAktivasi t u un).workorder = (parseAktivasi t u un).ao)) ∧
    aktivasiHandler fixtureT userFix "uname" "TGL" [hdrRow] =
      ([hdrRow, ["TGL", "SC000111", "SC000111", "12345678901", "", "TSEL", "",
                 "ZTEGDA00001", "111222333", "", "", "tek"]], .saved) := by
  refine ⟨fun t u un c ho => ⟨fun hc h1 h2 => ?_, fun hn => ?_⟩, by decide⟩
  · rw [parseAktivasi_tsel u un ho]
    unfold tselRecord findValue
    simp only [capOf, hc, h1, Bool.false_eq_true, if_false]
    unfold jsOr
    simp only [h2, Bool.false_eq_true, if_false]
  · rw [parseAktivasi_tsel u un ho]
    unfold tselRecord findValue
    simp only [capOf, hn]
    rfl

/-- Witness for C5: both branches of the theorem at concrete TSEL inputs —
`fixtureT2` carries an explicit `WORKORDER : WO123` field, `fixtureT` has
none and falls back to the AO. -/
theorem tsel_workorder_falls_back_to_ao_witness :
    (parseAktivasi fixtureT2 userFix "u").workorder = jsTrim "WO123" ∧
    (parseAktivasi fixtureT userFix "u").workorder =
      (parseAktivasi fixtureT userFix "u").ao :=
  ⟨(tsel_workorder_falls_back_to_ao.1 fixtureT2 userFix "u" "WO123"
      (by decide)).1 (by decide) (by decide) (by decide),
   (tsel_workorder_falls_back_to_ao.1 fixtureT userFix "u" ""
      (by decide)).2 (by decide)⟩

/-- **C2.** For every BGES/WMS-classified text, `ao` and `workorder` come
from the LAST `AO|…SC⟨6+ digits⟩` match while `customerName` comes from the
FIRST customer-line match; the fixture with two AO matches and one
customer-name line yields the second AO (`SC333444`) and the single customer
name (`JOHN DOE`). -/
theorem bges_last_ao_first_customer :
    (∀ (t : String) (u : List String) (un m c : String),
      (detectOwner t = "BGES" ∨ detectOwner t = "WMS") →
      (fullMatches patAoSc t).getLast? = some m →
      (fullMatches patCustomerB t).head? = some c →
      (parseAktivasi t u un).ao = scRefOf m ∧
      (parseAktivasi t u un).workorder = scRefOf m ∧
      (parseAktivasi t u un).customerName = custNameOf c) ∧
    fullMatches patAoSc fixtureB = ["AO| MDN SC111222", "AO| KDR SC333444"] ∧
    fullMatches patCustomerB fixtureB = ["01/02/2025 10:30 5 JOHN DOE  "] ∧
    (parseAktivasi fixtureB userFix "u").ao = "SC333444" ∧
    (parseAktivasi fixtureB userFix "u").workorder = "SC333444" ∧
    (parseAktivasi fixtureB userFix "u").customerName = "JOHN DOE" := by
  refine ⟨fun t u un m c ho hm hc => ?_, by decide, by decide, by decide,
    by decide, by decide⟩
  rw [parseAktivasi_bges u un ho]
  unfold bgesRecord scRefOf custNameOf
  rw [hm, hc]
  cases hsc : firstCapture patScCap m <;> cases hcc : firstCapture patCustomerB c <;>
    simp [hsc, hcc]

/-- Witness for C2: the theorem applied at the two-AO fixture. -/
theorem bges_last_ao_first_customer_witness :
    (parseAktivasi fixtureB userFix "u").ao = scRefOf "AO| KDR SC333444" ∧
    (parseAktivasi fixtureB userFix "u").workorder = scRefOf "AO| KDR SC333444" ∧
    (parseAktivasi fixtureB userFix "u").customerName =
      custNameOf ("01/02/2025 10:30 5 JOHN DOE  ") :=
  bges_last_ao_first_customer.1 fixtureB userFix "u" "AO| KDR SC333444"
    ("01/02/2025 10:30 5 JOHN DOE  ") (Or.inl (by decide))
    (by decide) (by decide)

/-! ## The technician handle (C6) -/

/-- **C6 (amended).** In the *enhanced* bot the technician handle is
independent of the message text: it is `(userRow[1] || username)` — the
handle resolved from the USER sheet, falling back to the submitter's
username — with the first `@` removed.  In the *legacy* bot, by contrast,
`teknisi` is parsed from the text body's `TEKNISI` field (the legacy parser
takes no submitter argument at all): the legacy fixture persists the
text-supplied value `BUDI`. -/
theorem teknisi_source_enhanced_vs_legacy :
    (∀ (t t' : String) (u : List String) (un : String),
      (parseAktivasi t u un).teknisi = (parseAktivasi t' u un).teknisi) ∧
    (∀ (t : String) (u : List String) (un : String),
      (parseAktivasi t u un).teknisi = stripFirstAt (jsOr (u.getD 1 "") un)) ∧
    (legacyParse legacyTextBudi).getD 10 "" = "BUDI" := by
  have key : ∀ (t : String) (u : List String) (un : String),
      (parseAktivasi t u un).teknisi = stripFirstAt (jsOr (u.getD 1 "") un) := by
    intro t u un
    by_cases h1 : detectOwner t = "TSEL"
    · rw [parseAktivasi_tsel u un h1]; rfl
    · by_cases h2 : detectOwner t = "BGES"
      · rw [parseAktivasi_bges u un (Or.inl h2)]; rfl
      · by_cases h3 : detectOwner t = "WMS"
        · rw [parseAktivasi_bges u un (Or.inr h3)]; rfl
        · rw [parseAktivasi_manual u un h1 h2 h3]; rfl
  exact ⟨fun t t' u un => (key t u un).trans (key t' u un).symm, key, by decide⟩

/-- **C6 (counterexample).** The legacy flow takes the technician handle
from the message text, not from the resolved submitter: two submissions
differing only in their `TEKNISI :` line persist different handles
(`BUDI` vs `ANDI`), and the persisted row's final column is the
text-supplied value. -/
theorem legacy_teknisi_comes_from_text :
    (legacyParse legacyTextBudi).getD 10 "" = "BUDI" ∧
    (legacyParse legacyTextAndi).getD 10 "" = "ANDI" ∧
    (legacyAktivasiHandler legacyTextBudi "TGL" [hdrRow]).1 =
      [hdrRow, ["TGL", "", "", "", "", "", "", "Z1", "11", "", "", "BUDI"]] :=
  ⟨by decide, by decide, by decide⟩

/-! ## Aggregation ranking (C9) -/

theorem insDesc_perm (x : String × Nat) (l : List (String × Nat)) :
    List.Perm (insDesc x l) (x :: l) := by
  induction l with
  | nil => exact .refl _
  | cons y ys ih =>
    unfold insDesc
    split
    · exact .refl _
    · exact (ih.cons y).trans (List.Perm.swap x y ys)

theorem insDesc_sorted {x : String × Nat} {l : List (String × Nat)}
    (h : l.Pairwise fun a b => b.2 ≤ a.2) :
    (insDesc x l).Pairwise fun a b => b.2 ≤ a.2 := by
  induction l with
  | nil => simp [insDesc]
  | cons y ys ih =>
    unfold insDesc
    split
    next hyx =>
      refine List.Pairwise.cons ?_ h
      intro z hz
      rcases List.mem_cons.mp hz with rfl | hz2
      · exact hyx
      · exact le_trans (List.rel_of_pairwise_cons h hz2) hyx
    next hyx =>
      have h1 := List.pairwise_cons.mp h
      refine List.Pairwise.cons ?_ (ih h1.2)
      intro z hz
      have hmem := (insDesc_perm x ys).mem_iff.mp hz
      rcases List.mem_cons.mp hmem with rfl | hz2
      · omega
      · exact h1.1 z hz2

theorem insDesc_filter (x : String × Nat) (l : List (String × Nat)) (c : Nat) :
    (insDesc x l).filter (fun e => e.2 == c) =
      if x.2 = c then x :: l.filter (fun e => e.2 == c)
      else l.filter (fun e => e.2 == c) := by
  induction l with
  | nil => by_cases h : x.2 = c <;> simp [insDesc, List.filter_cons, h]
  | cons y ys ih =>
    unfold insDesc
    split
    next hyx =>
      by_cases h : x.2 = c <;> simp [List.filter_cons, h]
    next hyx =>
      by_cases h : x.2 = c
      · have hy : ¬y.2 = c := by omega
        simp [List.filter_cons, h, hy, ih]
      · by_cases hy : y.2 = c <;> simp [List.filter_cons, h, hy, ih]

theorem rankDesc_perm (l : List (String × Nat)) : List.Perm (rankDesc l) l := by
  induction l with
  | nil => exact .refl _
  | cons a t ih => exact ((insDesc_perm a (rankDesc t)).trans (ih.cons a))

theorem rankDesc_sorted (l : List (String × Nat)) :
    (rankDesc l).Pairwise fun a b => b.2 ≤ a.2 := by
  induction l with
  | nil => simp [rankDesc]
  | cons a t ih => exact insDesc_sorted ih

theorem rankDesc_filter (l : List (String × Nat)) (c : Nat) :
    (rankDesc l).filter (fun e => e.2 == c) = l.filter (fun e => e.2 == c) := by
  induction l with
  | nil => rfl
  | cons a t ih =>
    show (insDesc a (rankDesc t)).filter _ = _
    rw [insDesc_filter]
    by_cases h : a.2 = c <;> simp [List.filter_cons, h, ih]

/-- **C9 (amended).** The report ranking is the stable descending sort by
count of `Object.entries` of the tally: it is a permutation of the entries,
its counts are non-increasing, and for each count value the entries with
that count appear exactly in entries order (stability).  `Object.entries`
preserves insertion order — i.e. first-encounter order of the
uppercase-normalised (empty ↦ `"-"`) keys — *except* that integer-like keys
are enumerated first, in ascending numeric order.  When no key is
integer-like the entries are exactly the tally in first-encounter order, and
the claim's example holds: counts A ↦ 3, B ↦ 5, C ↦ 5 with B encountered
before C rank as B, C, A. -/
theorem ranking_desc_stable :
    (∀ (rows : List (List String)) (i : Nat),
      (psRanking rows i).Perm (jsEntries (tallyCol rows i)) ∧
      ((psRanking rows i).Pairwise fun a b => b.2 ≤ a.2) ∧
      ∀ c, (psRanking rows i).filter (fun e => e.2 == c) =
        (jsEntries (tallyCol rows i)).filter (fun e => e.2 == c)) ∧
    (∀ m : List (String × Nat),
      (m.all fun e => !isIndexKey e.1) = true → jsEntries m = m) ∧
    psRanking rowsABC 5 = [("B", 5), ("C", 5), ("A", 3)] := by
  refine ⟨fun rows i => ⟨rankDesc_perm _, rankDesc_sorted _, fun c => rankDesc_filter _ c⟩,
    fun m h => ?_, by decide⟩
  unfold jsEntries
  have h1 : m.filter (fun e => isIndexKey e.1) = [] := by
    rw [List.filter_eq_nil_iff]
    intro a ha
    have h2 := List.all_eq_true.mp h a ha
    simp at h2
    simp [h2]
  have h3 : m.filter (fun e => !isIndexKey e.1) = m := by
    rw [List.filter_eq_self]
    intro a ha
    exact List.all_eq_true.mp h a ha
  rw [h1, h3]
  rfl

/-- **C9 (counterexample).** With the integer-like workzone keys `"20"`
(encountered first) and `"10"`, both with count 1, the ranked output lists
`"10"` before `"20"`: `Object.entries` enumerates integer-like keys in
ascending numeric order, not encounter order, so equal-count keys do *not*
generally appear in first-encounter order. -/
theorem ranking_integer_keys_not_encounter_order :
    psRanking rowsNumericWz 6 = [("10", 1), ("20", 1)] ∧
    ¬psRanking rowsNumericWz 6 = [("20", 1), ("10", 1)] :=
  ⟨by decide, by decide⟩

/-- Witness for C9: the amended theorem applied at concrete inputs with no
integer-like key. -/
theorem ranking_desc_stable_witness :
    jsEntries [("X", 2), ("Y", 1)] = [("X", 2), ("Y", 1)] :=
  ranking_desc_stable.2.1 [("X", 2), ("Y", 1)] (by decide)

end BotRekapan
